import Mathlib

/-!
# Verification of the `strong_json` type-preserving JSON codec

Shallow embedding of `src/strong_json/__init__.py`.  Python runtime values
(the inputs of `StrongJson.default_to_json_dict` and the outputs of
`StrongJson.default_from_json_dict`) are modelled by the inductive `PyVal`;
since the encoder's output (`JSONPrimitive`) is itself made of Python dicts,
lists and primitives, a single value type serves both sides.  Python
exceptions raised by the decoder are modelled by `PyError`, and the decoder
returns `Except PyError PyVal`.

Modelling conventions (stated once, used throughout):
* Python floats are modelled exactly (`Rat` for finite values) together with
  the three non-finite values; IEEE rounding is not modelled, which no
  theorem below depends on.
* A Python `dict` is modelled as its insertion-ordered association list;
  `OrderedDict` is the separate constructor `odict`.  Dict literals and
  comprehensions collapse duplicate keys exactly as Python does (first
  occurrence keeps its position, last assignment wins) via `mkDict`.
* A Python `set` is modelled as the list of its elements in iteration
  order; `set(...)` construction fails on unhashable elements like Python
  does and removes duplicates keeping the first occurrence (the concrete
  iteration order of a real hash set is irrelevant to every claim below).
-/

set_option maxHeartbeats 1000000
set_option linter.unusedVariables false
set_option linter.unreachableTactic false
set_option linter.unusedTactic false

/-- Non-finite and finite Python float values.  `finite q` stands for an
ordinary float, modelled as an exact rational. -/
inductive PyFloat where
  | nan
  | inf
  | neginf
  | finite (q : Rat)
deriving DecidableEq

/-- Python runtime values relevant to the codec: the JSON primitives, the
containers the encoder dispatches on (`dict`, `OrderedDict`, `tuple`,
`set`, `list`), `date`/`datetime` values, enumeration members, plain
objects (`cls` is `__qualname__`, `fields` is `__dict__` in insertion
order), and the two optional third-party array/table types. -/
inductive PyVal where
  | none
  | bool (b : Bool)
  | int (n : Int)
  | float (f : PyFloat)
  | str (s : String)
  | list (xs : List PyVal)
  | tuple (xs : List PyVal)
  | dict (items : List (PyVal × PyVal))
  | odict (items : List (PyVal × PyVal))
  | set (xs : List PyVal)
  | date (year month day : Int)
  | datetime (year month day hour minute second microsecond : Int)
  | enumMember (cls name : String)
  | obj (cls : String) (fields : List (String × PyVal))
  | ndarray (data : PyVal)
  | dataframe (data : PyVal)

mutual

/-- Boolean structural equality on `PyVal` (the derive handler does not
support nested inductives, so decidable equality is built by hand). -/
def PyVal.beq : PyVal → PyVal → Bool
  | .none, b => match b with | .none => true | _ => false
  | .bool x, b => match b with | .bool y => decide (x = y) | _ => false
  | .int x, b => match b with | .int y => decide (x = y) | _ => false
  | .float x, b => match b with | .float y => decide (x = y) | _ => false
  | .str x, b => match b with | .str y => decide (x = y) | _ => false
  | .list xs, b => match b with | .list ys => PyVal.beqList xs ys | _ => false
  | .tuple xs, b => match b with | .tuple ys => PyVal.beqList xs ys | _ => false
  | .dict xs, b => match b with | .dict ys => PyVal.beqItems xs ys | _ => false
  | .odict xs, b => match b with | .odict ys => PyVal.beqItems xs ys | _ => false
  | .set xs, b => match b with | .set ys => PyVal.beqList xs ys | _ => false
  | .date x1 x2 x3, b =>
      match b with
      | .date y1 y2 y3 => decide (x1 = y1) && decide (x2 = y2) && decide (x3 = y3)
      | _ => false
  | .datetime x1 x2 x3 x4 x5 x6 x7, b =>
      match b with
      | .datetime y1 y2 y3 y4 y5 y6 y7 =>
          decide (x1 = y1) && decide (x2 = y2) && decide (x3 = y3) && decide (x4 = y4) &&
          decide (x5 = y5) && decide (x6 = y6) && decide (x7 = y7)
      | _ => false
  | .enumMember c n, b =>
      match b with
      | .enumMember c' n' => decide (c = c') && decide (n = n')
      | _ => false
  | .obj c fs, b =>
      match b with
      | .obj c' fs' => decide (c = c') && PyVal.beqFields fs fs'
      | _ => false
  | .ndarray d, b => match b with | .ndarray d' => PyVal.beq d d' | _ => false
  | .dataframe d, b => match b with | .dataframe d' => PyVal.beq d d' | _ => false
termination_by a _ => sizeOf a

/-- Pointwise `PyVal.beq` on lists. -/
def PyVal.beqList : List PyVal → List PyVal → Bool
  | [], ys => match ys with | [] => true | _ => false
  | x :: xs, ys =>
      match ys with
      | y :: ys' => PyVal.beq x y && PyVal.beqList xs ys'
      | _ => false
termination_by xs _ => sizeOf xs

/-- Pointwise `PyVal.beq` on association lists. -/
def PyVal.beqItems : List (PyVal × PyVal) → List (PyVal × PyVal) → Bool
  | [], ys => match ys with | [] => true | _ => false
  | (k, v) :: xs, ys =>
      match ys with
      | (k', v') :: ys' => PyVal.beq k k' && PyVal.beq v v' && PyVal.beqItems xs ys'
      | _ => false
termination_by xs _ => sizeOf xs

/-- Pointwise `PyVal.beq` on string-keyed field lists. -/
def PyVal.beqFields : List (String × PyVal) → List (String × PyVal) → Bool
  | [], ys => match ys with | [] => true | _ => false
  | (k, v) :: xs, ys =>
      match ys with
      | (k', v') :: ys' => decide (k = k') && PyVal.beq v v' && PyVal.beqFields xs ys'
      | _ => false
termination_by xs _ => sizeOf xs

end

/-- `PyVal.beqList` agrees with equality, given that `beq` does so pointwise
on the left list's members. -/
theorem PyVal.beqList_iff (xs ys : List PyVal)
    (h : ∀ x ∈ xs, ∀ y : PyVal, (PyVal.beq x y = true ↔ x = y)) :
    (PyVal.beqList xs ys = true ↔ xs = ys) := by
  induction xs generalizing ys with
  | nil => cases ys <;> simp [PyVal.beqList]
  | cons x xs ih =>
    cases ys with
    | nil => simp [PyVal.beqList]
    | cons y ys =>
      have hx := h x (by simp)
      have ht : ∀ x ∈ xs, ∀ y : PyVal, (PyVal.beq x y = true ↔ x = y) := by
        intro x hmem
        exact h x (by simp [hmem])
      simp [PyVal.beqList, hx, ih ys ht]

/-- `PyVal.beqItems` agrees with equality on association lists. -/
theorem PyVal.beqItems_iff (xs ys : List (PyVal × PyVal))
    (h : ∀ p ∈ xs, (∀ y : PyVal, (PyVal.beq p.1 y = true ↔ p.1 = y)) ∧
        (∀ y : PyVal, (PyVal.beq p.2 y = true ↔ p.2 = y))) :
    (PyVal.beqItems xs ys = true ↔ xs = ys) := by
  induction xs generalizing ys with
  | nil => cases ys <;> simp [PyVal.beqItems]
  | cons p xs ih =>
    obtain ⟨k, v⟩ := p
    cases ys with
    | nil => simp [PyVal.beqItems]
    | cons q ys =>
      obtain ⟨k', v'⟩ := q
      have hp := h (k, v) (by simp)
      have ht : ∀ p ∈ xs, (∀ y : PyVal, (PyVal.beq p.1 y = true ↔ p.1 = y)) ∧
          (∀ y : PyVal, (PyVal.beq p.2 y = true ↔ p.2 = y)) := by
        intro p hmem
        exact h p (by simp [hmem])
      simp [PyVal.beqItems, hp.1, hp.2, ih ys ht, and_assoc]

/-- `PyVal.beqFields` agrees with equality on field lists. -/
theorem PyVal.beqFields_iff (xs ys : List (String × PyVal))
    (h : ∀ p ∈ xs, ∀ y : PyVal, (PyVal.beq p.2 y = true ↔ p.2 = y)) :
    (PyVal.beqFields xs ys = true ↔ xs = ys) := by
  induction xs generalizing ys with
  | nil => cases ys <;> simp [PyVal.beqFields]
  | cons p xs ih =>
    obtain ⟨k, v⟩ := p
    cases ys with
    | nil => simp [PyVal.beqFields]
    | cons q ys =>
      obtain ⟨k', v'⟩ := q
      have hp := h (k, v) (by simp)
      have ht : ∀ p ∈ xs, ∀ y : PyVal, (PyVal.beq p.2 y = true ↔ p.2 = y) := by
        intro p hmem
        exact h p (by simp [hmem])
      simp [PyVal.beqFields, hp, ih ys ht, and_assoc]

/-- `PyVal.beq` decides equality (by strong induction on size). -/
theorem PyVal.beq_iff (a b : PyVal) : (PyVal.beq a b = true ↔ a = b) := by
  have H : ∀ n, ∀ a b : PyVal, sizeOf a ≤ n → (PyVal.beq a b = true ↔ a = b) := by
    intro n
    induction n with
    | zero =>
      intro a b h
      exfalso
      cases a <;> simp at h
    | succ n ih =>
      intro a b h
      have hlist : ∀ xs : List PyVal, sizeOf xs ≤ n + 1 →
          ∀ x ∈ xs, ∀ y : PyVal, (PyVal.beq x y = true ↔ x = y) := by
        intro xs hxs x hmem y
        have := List.sizeOf_lt_of_mem hmem
        exact ih x y (by omega)
      have hitems : ∀ xs : List (PyVal × PyVal), sizeOf xs ≤ n + 1 →
          ∀ p ∈ xs, (∀ y : PyVal, (PyVal.beq p.1 y = true ↔ p.1 = y)) ∧
            (∀ y : PyVal, (PyVal.beq p.2 y = true ↔ p.2 = y)) := by
        intro xs hxs p hmem
        have h1 := List.sizeOf_lt_of_mem hmem
        obtain ⟨u, w⟩ := p
        simp at h1
        constructor
        · intro y; exact ih u y (by omega)
        · intro y; exact ih w y (by omega)
      have hfields : ∀ xs : List (String × PyVal), sizeOf xs ≤ n + 1 →
          ∀ p ∈ xs, ∀ y : PyVal, (PyVal.beq p.2 y = true ↔ p.2 = y) := by
        intro xs hxs p hmem y
        have h1 := List.sizeOf_lt_of_mem hmem
        obtain ⟨u, w⟩ := p
        simp at h1
        exact ih w y (by omega)
      cases a with
      | none => cases b <;> simp [PyVal.beq]
      | bool x => cases b <;> simp [PyVal.beq]
      | int x => cases b <;> simp [PyVal.beq]
      | float x => cases b <;> simp [PyVal.beq]
      | str x => cases b <;> simp [PyVal.beq]
      | list xs =>
        cases b <;> simp [PyVal.beq]
        exact PyVal.beqList_iff xs _ (hlist xs (by simp at h; omega))
      | tuple xs =>
        cases b <;> simp [PyVal.beq]
        exact PyVal.beqList_iff xs _ (hlist xs (by simp at h; omega))
      | dict xs =>
        cases b <;> simp [PyVal.beq]
        exact PyVal.beqItems_iff xs _ (hitems xs (by simp at h; omega))
      | odict xs =>
        cases b <;> simp [PyVal.beq]
        exact PyVal.beqItems_iff xs _ (hitems xs (by simp at h; omega))
      | set xs =>
        cases b <;> simp [PyVal.beq]
        exact PyVal.beqList_iff xs _ (hlist xs (by simp at h; omega))
      | date x1 x2 x3 => cases b <;> simp [PyVal.beq, and_assoc]
      | datetime x1 x2 x3 x4 x5 x6 x7 => cases b <;> simp [PyVal.beq, and_assoc]
      | enumMember c m => cases b <;> simp [PyVal.beq]
      | obj c fs =>
        cases b <;> simp [PyVal.beq]
        intro _
        exact PyVal.beqFields_iff fs _ (hfields fs (by simp at h; omega))
      | ndarray d =>
        cases b <;> simp [PyVal.beq]
        exact ih d _ (by simp at h; omega)
      | dataframe d =>
        cases b <;> simp [PyVal.beq]
        exact ih d _ (by simp at h; omega)
  exact H (sizeOf a) a b le_rfl

instance : DecidableEq PyVal := fun a b =>
  decidable_of_iff (PyVal.beq a b = true) (PyVal.beq_iff a b)

/-- Python exceptions the decoder can raise.  The first four are built-in
Python exceptions; the last three model the `StrongJsonError` subclasses
declared by the library (each carrying the data interpolated into its
message). -/
inductive PyError where
  | keyError (key : PyVal)
  | typeError (msg : String)
  | valueError (msg : String)
  | notImplementedError (msg : String)
  | classMapLookUpFail (tag : PyVal) (d : PyVal)
  | missingParameter (missing : List String) (tag : PyVal) (keys : List PyVal)
  | missingOptionalDependency (msg : String)
deriving DecidableEq

/-- Decidable equality of `Except` results (provided here because the
library does not ship one). -/
instance {eps alpha : Type} [DecidableEq eps] [DecidableEq alpha] :
    DecidableEq (Except eps alpha) := fun a b =>
  match a, b with
  | .ok x, .ok y => decidable_of_iff (x = y) (by simp)
  | .error x, .error y => decidable_of_iff (x = y) (by simp)
  | .ok _, .error _ => isFalse (by simp)
  | .error _, .ok _ => isFalse (by simp)

/-- Whether an exception is one of the library's declared `StrongJsonError`
subclasses (`ClassMapLookUpFailError`, `MissingParameterError`,
`MissingOptionalDependencyError`). -/
def PyError.isStrongJsonError : PyError → Bool
  | .classMapLookUpFail _ _ => true
  | .missingParameter _ _ _ => true
  | .missingOptionalDependency _ => true
  | _ => false

/-- `v` is a string value. -/
def PyVal.isStr : PyVal → Bool
  | .str _ => true
  | _ => false

mutual

/-- Python hashability: `list`, `dict`, `OrderedDict`, `set`, numpy arrays
and DataFrames are unhashable; a tuple is hashable iff all its elements
are; every other modelled value is hashable. -/
def pyHashable : PyVal → Bool
  | .list _ => false
  | .dict _ => false
  | .odict _ => false
  | .set _ => false
  | .ndarray _ => false
  | .dataframe _ => false
  | .tuple xs => pyHashableL xs
  | _ => true
termination_by v => sizeOf v

/-- All elements of the list are hashable (helper for tuples). -/
def pyHashableL : List PyVal → Bool
  | [] => true
  | x :: xs => pyHashable x && pyHashableL xs
termination_by xs => sizeOf xs

end

/-- `d[key]`: first binding of `key` in an association list.  Model dicts
carry each key at most once, so first/last lookup coincide on them. -/
def dictLookup : List (PyVal × PyVal) → PyVal → Option PyVal
  | [], _ => Option.none
  | (k, v) :: rest, key => if k = key then some v else dictLookup rest key

/-- `key in d` on the keys of an association list. -/
def keyMem (items : List (PyVal × PyVal)) (key : PyVal) : Bool :=
  (dictLookup items key).isSome

/-- Last binding of `key` (used for Python's duplicate-key collapse, where
the last assignment wins). -/
def lastLookup : List (PyVal × PyVal) → PyVal → Option PyVal
  | [], _ => Option.none
  | (k, v) :: rest, key =>
      match lastLookup rest key with
      | some w => some w
      | Option.none => if k = key then some v else Option.none

/-- Build the association list of a Python dict from the sequence of
`d[k] = v` assignments: a repeated key keeps the position of its first
occurrence and the value of its last one.  `seen` holds keys already
emitted. -/
def mkDictGo (seen : List PyVal) : List (PyVal × PyVal) → List (PyVal × PyVal)
  | [] => []
  | (k, v) :: rest =>
      if k ∈ seen then mkDictGo seen rest
      else (k, (lastLookup rest k).getD v) :: mkDictGo (k :: seen) rest

/-- The association list of the Python dict built from `items` in order. -/
def mkDictList (items : List (PyVal × PyVal)) : List (PyVal × PyVal) :=
  mkDictGo [] items

/-- The Python dict built from `items` in order (dict literal /
comprehension semantics). -/
def mkDict (items : List (PyVal × PyVal)) : PyVal :=
  .dict (mkDictList items)

/-- Deduplication keeping the first occurrence: Python `set(...)`
construction, with the model's set iteration order being insertion
order. -/
def dedupFirst : List PyVal → List PyVal
  | [] => []
  | x :: xs => x :: dedupFirst (xs.filter (fun y => !decide (y = x)))
termination_by xs => xs.length
decreasing_by
  have := List.length_filter_le (fun y => !decide (y = x)) xs
  simp only [List.length_cons]
  omega

/-- Digits of a numeric literal, most significant first, as a natural. -/
def digitsVal (cs : List Char) : Nat :=
  cs.foldl (fun acc c => 10 * acc + (c.toNat - '0'.toNat)) 0

/-- All characters are decimal digits and there is at least one. -/
def allDigits (cs : List Char) : Bool :=
  cs ≠ [] && cs.all (·.isDigit)

/-- Split a character list at the first occurrence of any of `seps`. -/
def splitAtChar (sep : Char → Bool) : List Char → (List Char × Option (List Char))
  | [] => ([], Option.none)
  | c :: cs =>
      if sep c then ([], some cs)
      else
        let (pre, post) := splitAtChar sep cs
        (c :: pre, post)

/-- Sign prefix of a numeric literal. -/
def signSplit : List Char → (Int × List Char)
  | '+' :: rest => (1, rest)
  | '-' :: rest => (-1, rest)
  | cs => (1, cs)

/-- Parse an unsigned decimal literal `digits[.digits][e[sign]digits]`
(at least one mantissa digit) as a pair `(m, e)` denoting the value
`m * 10 ^ e`; `Option.none` where CPython raises `ValueError`. -/
def parseDecimal (body : List Char) : Option (Int × Int) :=
  let (mant, expPart) := splitAtChar (· = 'e') body
  let (intPart, fracPart) := splitAtChar (· = '.') mant
  let frac := fracPart.getD []
  if intPart ++ frac = [] then Option.none
  else if ¬ (intPart ++ frac).all (·.isDigit) then Option.none
  else
    let m : Int := (digitsVal (intPart ++ frac) : Int)
    match expPart with
    | Option.none => some (m, -(frac.length : Int))
    | some ecs =>
        let (esign, edigits) := signSplit ecs
        if ¬ allDigits edigits then Option.none
        else some (m, esign * (digitsVal edigits : Int) - (frac.length : Int))

/-- Model of CPython's `float(<str>)` string parsing, restricted to the
shapes this development evaluates it on: an optional sign followed by
`inf`/`infinity`/`nan` (case-insensitive) or a decimal literal
`digits[.digits][e[sign]digits]` with at least one mantissa digit.
Surrounding whitespace, digit-group underscores and hex floats are not
modelled; the result is the exact rational, IEEE rounding being
irrelevant to every claim below.  Returns `none` where CPython raises
`ValueError`. -/
def pyFloatOfString (s : String) : Option PyFloat :=
  let (sign, body) := signSplit (s.toList.map Char.toLower)
  if body = "inf".toList || body = "infinity".toList then
    some (if sign = 1 then .inf else .neginf)
  else if body = "nan".toList then
    some .nan
  else
    match parseDecimal body with
    | Option.none => Option.none
    | some (m, e) =>
        some (.finite (if 0 ≤ e then ((sign * m : Int) : Rat) * (10 : Rat) ^ e.toNat
          else ((sign * m : Int) : Rat) / (10 : Rat) ^ (-e).toNat))

/-- Model of Python's `float(x)` builtin applied to a decoded JSON value:
numbers convert, strings parse via `pyFloatOfString`, anything else is a
`TypeError`. -/
def pyFloatOf : PyVal → Except PyError PyFloat
  | .int n => .ok (.finite (n : Rat))
  | .float f => .ok f
  | .bool b => .ok (.finite (if b then 1 else 0))
  | .str s =>
      match pyFloatOfString s with
      | some f => .ok f
      | Option.none => .error (.valueError ("could not convert string to float: " ++ s))
  | _ => .error (.typeError "float() argument must be a string or a real number")

/-- One constructor parameter as reported by `inspect.signature(cls)`:
its name, and its declared default value (`Option.none` models
`inspect.Parameter.empty`, i.e. a required parameter). -/
structure Param where
  name : String
  default : Option PyVal
deriving DecidableEq

/-- A class registered in the class map, classified the way
`default_from_json_dict` dispatches on it: a `FromJsonable` subclass
(whose classmethod is modelled as a function of the raw mapping), an
`Enum` subclass (with its member names in declaration order), or a plain
class (with its constructor signature).  A plain class is modelled as
storing each constructor parameter as an instance attribute of the same
name, as every class in the repository's tests does. -/
inductive ClassEntry where
  | fromJsonable (f : PyVal → Except PyError PyVal)
  | enumClass (clsName : String) (members : List String)
  | plainClass (clsName : String) (params : List Param)

/-- String-keyed lookup in the class map. -/
def lookupCM : List (String × ClassEntry) → String → Option ClassEntry
  | [], _ => Option.none
  | (k, v) :: rest, key => if k = key then some v else lookupCM rest key

/-- The codec configuration, mirroring `StrongJson.__init__`. -/
structure StrongJson where
  class_map : List (String × ClassEntry)
  type_key : String
  data_key : String
  treat_dict_as_ordered_dict : Bool

mutual

/-- `StrongJson.default_to_json_dict`: lower a Python value into a
JSON-safe value, following the source's `isinstance` dispatch order.
Branch notes, in source order: `ToJsonable` values are not modelled
separately because the library's own `ToJsonable.to_json_dict` delegates
to `simple_object_dump`, which is exactly the `obj` fallback below;
numpy arrays and DataFrames are modelled with `v.tolist()` / `v.to_dict()`
taken to be the stored payload. -/
def StrongJson.default_to_json_dict (e : StrongJson) : PyVal → PyVal
  | .dict [] => .dict []
  | .odict [] => .dict []
  | .dict (p :: rest) =>
      if e.treat_dict_as_ordered_dict || !p.1.isStr then
        mkDict [(.str e.type_key, .str "dict"),
                (.str e.data_key, .list (e.encodeRecords (p :: rest)))]
      else
        mkDict (e.encodeCompact (p :: rest))
  | .odict (p :: rest) =>
      mkDict [(.str e.type_key, .str "dict"),
              (.str e.data_key, .list (e.encodeRecords (p :: rest)))]
  | .enumMember cls nm =>
      mkDict [(.str e.type_key, .str cls), (.str e.data_key, .str nm)]
  | .tuple xs =>
      mkDict [(.str e.type_key, .str "tuple"),
              (.str e.data_key, .list (e.encodeL xs))]
  | .datetime y mo d h mi s us =>
      mkDict [(.str e.type_key, .str "datetime"),
              (.str "year", .int y), (.str "month", .int mo), (.str "day", .int d),
              (.str "hour", .int h), (.str "minute", .int mi), (.str "second", .int s),
              (.str "microsecond", .int us)]
  | .date y mo d =>
      mkDict [(.str e.type_key, .str "date"),
              (.str "year", .int y), (.str "month", .int mo), (.str "day", .int d)]
  | .set xs =>
      mkDict [(.str e.type_key, .str "set"),
              (.str e.data_key, .list (e.encodeL xs))]
  | .list xs => .list (e.encodeL xs)
  | .float .nan => mkDict [(.str e.type_key, .str "float"), (.str e.data_key, .str "nan")]
  | .float .inf => mkDict [(.str e.type_key, .str "float"), (.str e.data_key, .str "inf")]
  | .float .neginf => mkDict [(.str e.type_key, .str "float"), (.str e.data_key, .str "-inf")]
  | .float (.finite q) => .float (.finite q)
  | .int n => .int n
  | .str s => .str s
  | .bool b => .bool b
  | .none => .none
  | .ndarray data =>
      mkDict [(.str e.type_key, .str "numpy.ndarray"),
              (.str e.data_key, e.default_to_json_dict data)]
  | .dataframe data =>
      mkDict [(.str e.type_key, .str "pandas.DataFrame"),
              (.str e.data_key, e.default_to_json_dict data)]
  | .obj cls fields =>
      .dict (mkDictGo [] ((.str "__type__", .str cls) :: e.encodeFields fields))
termination_by v => (sizeOf v, 1)

/-- Encode the elements of a list/tuple/set payload in order. -/
def StrongJson.encodeL (e : StrongJson) : List PyVal → List PyVal
  | [] => []
  | x :: xs => e.default_to_json_dict x :: e.encodeL xs
termination_by xs => (sizeOf xs, 0)

/-- The `[{'key': ..., 'value': ...}]` records of a `"dict"` envelope. -/
def StrongJson.encodeRecords (e : StrongJson) : List (PyVal × PyVal) → List PyVal
  | [] => []
  | (k, v) :: rest =>
      mkDict [(.str "key", e.default_to_json_dict k),
              (.str "value", e.default_to_json_dict v)] :: e.encodeRecords rest
termination_by items => (sizeOf items, 0)

/-- The compact string-keyed form: keys kept as-is, values encoded. -/
def StrongJson.encodeCompact (e : StrongJson) : List (PyVal × PyVal) → List (PyVal × PyVal)
  | [] => []
  | (k, v) :: rest => (k, e.default_to_json_dict v) :: e.encodeCompact rest
termination_by items => (sizeOf items, 0)

/-- The attribute fields of `simple_object_dump`: `__objclass__` is
skipped, every other `__dict__` entry is encoded in order. -/
def StrongJson.encodeFields (e : StrongJson) : List (String × PyVal) → List (PyVal × PyVal)
  | [] => []
  | (k, v) :: rest =>
      if k = "__objclass__" then e.encodeFields rest
      else (.str k, e.default_to_json_dict v) :: e.encodeFields rest
termination_by fields => (sizeOf fields, 0)

end

/-- `StrongJson.simple_object_dump`: reflection fallback for a plain
object, building `{'__type__': qualname, field: encoded value, ...}`.
The tag key is the literal string `'__type__'` exactly as in the source
(not `e.type_key`); the `ClassMapLookUpFailWarning` the source may emit is
a non-fatal diagnostic that does not affect the returned value and is not
modelled. -/
def StrongJson.simple_object_dump (e : StrongJson) (cls : String)
    (fields : List (String × PyVal)) : PyVal :=
  .dict (mkDictGo [] ((.str "__type__", .str cls) :: e.encodeFields fields))

/-- The `obj` branch of the encoder is exactly `simple_object_dump`. -/
theorem StrongJson.default_to_json_dict_obj (e : StrongJson) (cls : String)
    (fields : List (String × PyVal)) :
    e.default_to_json_dict (.obj cls fields) = e.simple_object_dump cls fields := by
  rw [StrongJson.default_to_json_dict, StrongJson.simple_object_dump]

/-- A value found by `dictLookup` is structurally smaller than the
association list it came from (used for the decoder's termination). -/
theorem sizeOf_dictLookup {items : List (PyVal × PyVal)} {key v : PyVal}
    (h : dictLookup items key = some v) : sizeOf v < sizeOf items := by
  induction items with
  | nil => simp [dictLookup] at h
  | cons p rest ih =>
    obtain ⟨k, w⟩ := p
    rw [dictLookup] at h
    split at h
    · injection h with h2
      subst h2
      simp
      omega
    · have := ih h
      simp
      omega

/-- `k in params` on the parameter mapping returned by
`inspect.signature(cls).parameters` (string keys only). -/
def paramMem (params : List Param) : PyVal → Bool
  | .str s => params.any (fun p => p.name = s)
  | _ => false

/-- `obj_class(**tmp)`: the constructed object stores each constructor
parameter as an attribute, taken from `tmp` when passed and from the
declared default otherwise (the decoder only reaches this when every
no-default parameter is present, so the inner `getD PyVal.none` is never
exercised). -/
def constructParams (params : List Param) (tmp : List (PyVal × PyVal)) :
    List (String × PyVal) :=
  params.map (fun p => (p.name, (dictLookup tmp (.str p.name)).getD (p.default.getD .none)))

/-- `datetime.date(**rest)`: requires exactly the keyword arguments
`year`, `month`, `day` with integer values.  Unexpected or missing
keywords raise `TypeError` like CPython; the calendar range validation
(CPython's `ValueError` for e.g. month 13) is not modelled, and no claim
below depends on it. -/
def buildDate (rest : List (PyVal × PyVal)) : Except PyError PyVal :=
  if rest.any (fun p => !p.1.isStr) then
    .error (.typeError "keywords must be strings")
  else if rest.any (fun p => !(p.1 = .str "year" || p.1 = .str "month" || p.1 = .str "day")) then
    .error (.typeError "invalid keyword argument for date()")
  else
    match dictLookup rest (.str "year"), dictLookup rest (.str "month"),
        dictLookup rest (.str "day") with
    | some (.int y), some (.int mo), some (.int dd) => .ok (.date y mo dd)
    | _, _, _ => .error (.typeError "date() missing or non-integer argument")

/-- An optional integer keyword of `datetime(...)`: absent means the
default `0`, present non-integers signal `TypeError` (`Option.none`). -/
def optIntField (rest : List (PyVal × PyVal)) (k : String) : Option Int :=
  match dictLookup rest (.str k) with
  | Option.none => some 0
  | some (.int n) => some n
  | some _ => Option.none

/-- `datetime.datetime(**rest)`: `year`, `month`, `day` required,
`hour`, `minute`, `second`, `microsecond` defaulting to `0`.  The same
modelling notes as `buildDate` apply (`tzinfo`/`fold` keywords and range
validation are not modelled). -/
def buildDatetime (rest : List (PyVal × PyVal)) : Except PyError PyVal :=
  if rest.any (fun p => !p.1.isStr) then
    .error (.typeError "keywords must be strings")
  else if rest.any (fun p => !(p.1 = .str "year" || p.1 = .str "month" || p.1 = .str "day" ||
      p.1 = .str "hour" || p.1 = .str "minute" || p.1 = .str "second" ||
      p.1 = .str "microsecond")) then
    .error (.typeError "invalid keyword argument for datetime()")
  else
    match dictLookup rest (.str "year"), dictLookup rest (.str "month"),
        dictLookup rest (.str "day") with
    | some (.int y), some (.int mo), some (.int dd) =>
        match optIntField rest "hour", optIntField rest "minute",
            optIntField rest "second", optIntField rest "microsecond" with
        | some h, some mi, some s, some us => .ok (.datetime y mo dd h mi s us)
        | _, _, _, _ => .error (.typeError "datetime() non-integer argument")
    | _, _, _ => .error (.typeError "datetime() missing or non-integer argument")

mutual

/-- `StrongJson.default_from_json_dict`: raise a JSON-safe value back to a
Python value.  `dict` and `OrderedDict` inputs both take the mapping
branch (`isinstance(d, dict)`); `bool` inputs are returned unchanged (a
Python `bool` is an `int`); inputs outside the JSON-safe model raise
`NotImplementedError` as in the source. -/
def StrongJson.default_from_json_dict (e : StrongJson) : PyVal → Except PyError PyVal
  | .dict items => e.decodeMapping items
  | .odict items => e.decodeMapping items
  | .list xs =>
      match e.decodeL xs with
      | .ok ys => .ok (.list ys)
      | .error err => .error err
  | .int n => .ok (.int n)
  | .str s => .ok (.str s)
  | .float f => .ok (.float f)
  | .bool b => .ok (.bool b)
  | .none => .ok .none
  | .tuple _ => .error (.notImplementedError "Unknown type parse")
  | .set _ => .error (.notImplementedError "Unknown type parse")
  | .date _ _ _ => .error (.notImplementedError "Unknown type parse")
  | .datetime _ _ _ _ _ _ _ => .error (.notImplementedError "Unknown type parse")
  | .enumMember _ _ => .error (.notImplementedError "Unknown type parse")
  | .obj _ _ => .error (.notImplementedError "Unknown type parse")
  | .ndarray _ => .error (.notImplementedError "Unknown type parse")
  | .dataframe _ => .error (.notImplementedError "Unknown type parse")
termination_by v => (sizeOf v, 0)

/-- The mapping branch of the decoder: no type tag means a plain
string-keyed mapping; a registered tag dispatches on the class kind;
otherwise the built-in sentinel tags are tried.  Membership of the tag
value in the class map hashes it first, so an unhashable tag value raises
`TypeError` (dict keys themselves are always hashable in a real Python
dict, so key comparisons need no such check). -/
def StrongJson.decodeMapping (e : StrongJson) (items : List (PyVal × PyVal)) :
    Except PyError PyVal :=
  match dictLookup items (.str e.type_key) with
  | Option.none =>
      match e.decodeVals items with
      | .ok ps => .ok (mkDict ps)
      | .error err => .error err
  | some tagV =>
      if pyHashable tagV then
        match tagV with
        | .str s =>
            match lookupCM e.class_map s with
            | some (.fromJsonable f) => f (.dict items)
            | some (.enumClass cls members) =>
                match dictLookup items (.str e.data_key) with
                | Option.none => .error (.keyError (.str e.data_key))
                | some data =>
                    match data with
                    | .str nm =>
                        if members.contains nm then .ok (.enumMember cls nm)
                        else .error (.keyError data)
                    | _ => .error (.keyError data)
            | some (.plainClass cls params) =>
                let missing := (params.filter
                    (fun p => p.default.isNone && !keyMem items (.str p.name))).map Param.name
                if missing.isEmpty then
                  match e.decodeTmp params items with
                  | .ok tmp => .ok (.obj cls (constructParams params tmp))
                  | .error err => .error err
                else
                  .error (.missingParameter missing (.str s) (items.map Prod.fst))
            | Option.none => e.decodeSentinel items (.str s)
        | _ => e.decodeSentinel items tagV
      else .error (.typeError "unhashable type")
termination_by (sizeOf items, 1)

/-- The built-in sentinel tags, tried after the class map, in source
order: `dict`, `tuple`, `date`, `datetime`, `set`, `float`,
`pandas.DataFrame`, `numpy.ndarray`, then the `ClassMapLookUpFailError`
fallback.  Both third-party libraries are modelled as importable (as in
the repository's test environment), their constructors wrapping the
decoded payload.  Iteration of a `"dict"`/`"tuple"` data payload is
modelled for list payloads, the only shape the encoder produces; other
payload shapes map to `TypeError` as the subscripting/iteration would
eventually raise in CPython. -/
def StrongJson.decodeSentinel (e : StrongJson) (items : List (PyVal × PyVal))
    (tagV : PyVal) : Except PyError PyVal :=
  if tagV = .str "dict" then
    match h : dictLookup items (.str e.data_key) with
    | some (.list records) =>
        match e.decodeRecords records with
        | .ok ps => .ok (mkDict ps)
        | .error err => .error err
    | some _ => .error (.typeError "dict data is not a sequence of records")
    | Option.none => .error (.keyError (.str e.data_key))
  else if tagV = .str "tuple" then
    match h : dictLookup items (.str e.data_key) with
    | some (.list xs) =>
        match e.decodeL xs with
        | .ok ys => .ok (.tuple ys)
        | .error err => .error err
    | some _ => .error (.typeError "tuple data is not a sequence")
    | Option.none => .error (.keyError (.str e.data_key))
  else if tagV = .str "date" then
    buildDate (items.filter (fun p => !(p.1 = .str e.type_key)))
  else if tagV = .str "datetime" then
    buildDatetime (items.filter (fun p => !(p.1 = .str e.type_key)))
  else if tagV = .str "set" then
    match h : dictLookup items (.str e.data_key) with
    | some (.list xs) =>
        if xs.all pyHashable then .ok (.set (dedupFirst xs))
        else .error (.typeError "unhashable type")
    | some _ => .error (.typeError "set data is not a sequence")
    | Option.none => .error (.keyError (.str e.data_key))
  else if tagV = .str "float" then
    match h : dictLookup items (.str e.data_key) with
    | some data =>
        match pyFloatOf data with
        | .ok f => .ok (.float f)
        | .error err => .error err
    | Option.none => .error (.keyError (.str e.data_key))
  else if tagV = .str "pandas.DataFrame" then
    match h : dictLookup items (.str e.data_key) with
    | some data =>
        match e.default_from_json_dict data with
        | .ok d => .ok (.dataframe d)
        | .error err => .error err
    | Option.none => .error (.keyError (.str e.data_key))
  else if tagV = .str "numpy.ndarray" then
    match h : dictLookup items (.str e.data_key) with
    | some data =>
        match e.default_from_json_dict data with
        | .ok d => .ok (.ndarray d)
        | .error err => .error err
    | Option.none => .error (.keyError (.str e.data_key))
  else
    .error (.classMapLookUpFail tagV (.dict items))
termination_by (sizeOf items, 0)
decreasing_by
all_goals
  simp_wf
  first
  | (apply Prod.Lex.left
     have s := sizeOf_dictLookup h
     simp at s
     omega)
  | (apply Prod.Lex.left
     have s := sizeOf_dictLookup h
     omega)

/-- Decode the values of a plain string-keyed mapping, keys kept as-is,
first failure propagated. -/
def StrongJson.decodeVals (e : StrongJson) :
    List (PyVal × PyVal) → Except PyError (List (PyVal × PyVal))
  | [] => .ok []
  | (k, v) :: rest =>
      match e.default_from_json_dict v with
      | .error err => .error err
      | .ok w =>
          match e.decodeVals rest with
          | .ok ps => .ok ((k, w) :: ps)
          | .error err => .error err
termination_by items => (sizeOf items, 0)

/-- Decode the `{'key': ..., 'value': ...}` records of a `"dict"`
envelope: each record is subscripted for `'key'` and `'value'` and both
are decoded recursively, key first. -/
def StrongJson.decodeRecords (e : StrongJson) :
    List PyVal → Except PyError (List (PyVal × PyVal))
  | [] => .ok []
  | r :: rest =>
      match r with
      | .dict ritems | .odict ritems =>
          match hk : dictLookup ritems (.str "key") with
          | Option.none => .error (.keyError (.str "key"))
          | some kJ =>
              match e.default_from_json_dict kJ with
              | .error err => .error err
              | .ok k =>
                  match hv : dictLookup ritems (.str "value") with
                  | Option.none => .error (.keyError (.str "value"))
                  | some vJ =>
                      match e.default_from_json_dict vJ with
                      | .error err => .error err
                      | .ok v =>
                          match e.decodeRecords rest with
                          | .ok ps => .ok ((k, v) :: ps)
                          | .error err => .error err
      | _ => .error (.typeError "record is not subscriptable")
termination_by rs => (sizeOf rs, 0)
decreasing_by
all_goals
  simp_wf
  first
  | (apply Prod.Lex.left
     have s := sizeOf_dictLookup hk
     simp
     all_goals omega)
  | (apply Prod.Lex.left
     have s := sizeOf_dictLookup hv
     simp
     all_goals omega)
  | (apply Prod.Lex.left
     simp
     all_goals omega)

/-- Build `tmp` for the plain-class branch: fields other than the type
key that name a constructor parameter, values decoded in input order. -/
def StrongJson.decodeTmp (e : StrongJson) (params : List Param) :
    List (PyVal × PyVal) → Except PyError (List (PyVal × PyVal))
  | [] => .ok []
  | (k, v) :: rest =>
      if !(k = .str e.type_key) && paramMem params k then
        match e.default_from_json_dict v with
        | .error err => .error err
        | .ok w =>
            match e.decodeTmp params rest with
            | .ok ps => .ok ((k, w) :: ps)
            | .error err => .error err
      else e.decodeTmp params rest
termination_by items => (sizeOf items, 0)

/-- Decode the elements of a JSON list in order, first failure
propagated. -/
def StrongJson.decodeL (e : StrongJson) : List PyVal → Except PyError (List PyVal)
  | [] => .ok []
  | x :: xs =>
      match e.default_from_json_dict x with
      | .error err => .error err
      | .ok y =>
          match e.decodeL xs with
          | .ok ys => .ok (y :: ys)
          | .error err => .error err
termination_by xs => (sizeOf xs, 0)

end

/-- The module-level default codec: `strong_json = StrongJson(class_map={})`. -/
def strong_json : StrongJson :=
  { class_map := [], type_key := "__type__", data_key := "__data__",
    treat_dict_as_ordered_dict := true }


/-! ### Characterization lemmas for the decoder

The decoder's sentinel branches pattern-match on `dictLookup` results with
their equations in scope (needed for termination), which blocks direct
rewriting; the following lemmas restate each branch under an explicit
lookup hypothesis and are what every later proof goes through. -/

/-- A `"dict"`-tagged envelope with a list payload decodes its records and
rebuilds a builtin dict. -/
theorem StrongJson.decodeSentinel_dict (e : StrongJson) (items : List (PyVal × PyVal))
    (records : List PyVal)
    (hd : dictLookup items (.str e.data_key) = some (.list records)) :
    e.decodeSentinel items (.str "dict") =
      match e.decodeRecords records with
      | .ok ps => .ok (mkDict ps)
      | .error err => .error err := by
  rw [StrongJson.decodeSentinel]
  simp only [reduceIte]
  split
  · rename_i records' heq
    rw [hd] at heq
    injection heq with heq2
    injection heq2 with heq3
    rw [heq3]
  · rename_i val hne heq
    rw [hd] at heq
    injection heq with heq2
    exact absurd heq2.symm (hne records)
  · rename_i heq
    rw [hd] at heq
    exact absurd heq (Option.some_ne_none _)

/-- A `"dict"`-tagged envelope lacking the data key raises `KeyError`. -/
theorem StrongJson.decodeSentinel_dict_nodata (e : StrongJson)
    (items : List (PyVal × PyVal))
    (hd : dictLookup items (.str e.data_key) = Option.none) :
    e.decodeSentinel items (.str "dict") = .error (.keyError (.str e.data_key)) := by
  rw [StrongJson.decodeSentinel]
  simp only [reduceIte]
  split
  · rename_i records' heq
    rw [hd] at heq
    exact absurd heq.symm (Option.some_ne_none _)
  · rename_i val hne heq
    rw [hd] at heq
    exact absurd heq.symm (Option.some_ne_none _)
  · rfl

/-- A `"tuple"`-tagged envelope with a list payload decodes its elements
into a tuple. -/
theorem StrongJson.decodeSentinel_tuple (e : StrongJson) (items : List (PyVal × PyVal))
    (xs : List PyVal)
    (hd : dictLookup items (.str e.data_key) = some (.list xs)) :
    e.decodeSentinel items (.str "tuple") =
      match e.decodeL xs with
      | .ok ys => .ok (.tuple ys)
      | .error err => .error err := by
  rw [StrongJson.decodeSentinel]
  simp only [PyVal.str.injEq, String.reduceEq, reduceIte]
  split
  · rename_i xs' heq
    rw [hd] at heq
    injection heq with heq2
    injection heq2 with heq3
    rw [heq3]
  · rename_i val hne heq
    rw [hd] at heq
    injection heq with heq2
    exact absurd heq2.symm (hne xs)
  · rename_i heq
    rw [hd] at heq
    exact absurd heq (Option.some_ne_none _)

/-- A `"tuple"`-tagged envelope lacking the data key raises `KeyError`. -/
theorem StrongJson.decodeSentinel_tuple_nodata (e : StrongJson)
    (items : List (PyVal × PyVal))
    (hd : dictLookup items (.str e.data_key) = Option.none) :
    e.decodeSentinel items (.str "tuple") = .error (.keyError (.str e.data_key)) := by
  rw [StrongJson.decodeSentinel]
  simp only [PyVal.str.injEq, String.reduceEq, reduceIte]
  split
  · rename_i records' heq
    rw [hd] at heq
    exact absurd heq.symm (Option.some_ne_none _)
  · rename_i val hne heq
    rw [hd] at heq
    exact absurd heq.symm (Option.some_ne_none _)
  · rfl

/-- A `"date"`-tagged envelope constructs `date(**fields)` from every
field other than the type key. -/
theorem StrongJson.decodeSentinel_date (e : StrongJson) (items : List (PyVal × PyVal)) :
    e.decodeSentinel items (.str "date") =
      buildDate (items.filter (fun p => !(p.1 = .str e.type_key))) := by
  rw [StrongJson.decodeSentinel]
  simp only [PyVal.str.injEq, String.reduceEq, reduceIte]

/-- A `"datetime"`-tagged envelope constructs `datetime(**fields)` from
every field other than the type key. -/
theorem StrongJson.decodeSentinel_datetime (e : StrongJson) (items : List (PyVal × PyVal)) :
    e.decodeSentinel items (.str "datetime") =
      buildDatetime (items.filter (fun p => !(p.1 = .str e.type_key))) := by
  rw [StrongJson.decodeSentinel]
  simp only [PyVal.str.injEq, String.reduceEq, reduceIte]

/-- A `"set"`-tagged envelope with a list payload builds `set(data)`
directly from the raw payload elements — they are *not* decoded
recursively — raising `TypeError` if any element is unhashable. -/
theorem StrongJson.decodeSentinel_set (e : StrongJson) (items : List (PyVal × PyVal))
    (xs : List PyVal)
    (hd : dictLookup items (.str e.data_key) = some (.list xs)) :
    e.decodeSentinel items (.str "set") =
      (if xs.all pyHashable then .ok (.set (dedupFirst xs))
       else .error (.typeError "unhashable type")) := by
  rw [StrongJson.decodeSentinel]
  simp only [PyVal.str.injEq, String.reduceEq, reduceIte]
  split
  · rename_i xs' heq
    rw [hd] at heq
    injection heq with heq2
    injection heq2 with heq3
    rw [heq3]
  · rename_i val hne heq
    rw [hd] at heq
    injection heq with heq2
    exact absurd heq2.symm (hne xs)
  · rename_i heq
    rw [hd] at heq
    exact absurd heq (Option.some_ne_none _)

/-- A `"set"`-tagged envelope lacking the data key raises `KeyError`. -/
theorem StrongJson.decodeSentinel_set_nodata (e : StrongJson)
    (items : List (PyVal × PyVal))
    (hd : dictLookup items (.str e.data_key) = Option.none) :
    e.decodeSentinel items (.str "set") = .error (.keyError (.str e.data_key)) := by
  rw [StrongJson.decodeSentinel]
  simp only [PyVal.str.injEq, String.reduceEq, reduceIte]
  split
  · rename_i records' heq
    rw [hd] at heq
    exact absurd heq.symm (Option.some_ne_none _)
  · rename_i val hne heq
    rw [hd] at heq
    exact absurd heq.symm (Option.some_ne_none _)
  · rfl

/-- A `"float"`-tagged envelope applies `float(...)` to the raw data
value. -/
theorem StrongJson.decodeSentinel_float (e : StrongJson) (items : List (PyVal × PyVal))
    (data : PyVal)
    (hd : dictLookup items (.str e.data_key) = some data) :
    e.decodeSentinel items (.str "float") =
      match pyFloatOf data with
      | .ok f => .ok (.float f)
      | .error err => .error err := by
  rw [StrongJson.decodeSentinel]
  simp only [PyVal.str.injEq, String.reduceEq, reduceIte]
  split
  · rename_i data' heq
    rw [hd] at heq
    injection heq with heq2
    rw [heq2]
  · rename_i heq
    rw [hd] at heq
    exact absurd heq (Option.some_ne_none _)

/-- A `"float"`-tagged envelope lacking the data key raises `KeyError`. -/
theorem StrongJson.decodeSentinel_float_nodata (e : StrongJson)
    (items : List (PyVal × PyVal))
    (hd : dictLookup items (.str e.data_key) = Option.none) :
    e.decodeSentinel items (.str "float") = .error (.keyError (.str e.data_key)) := by
  rw [StrongJson.decodeSentinel]
  simp only [PyVal.str.injEq, String.reduceEq, reduceIte]
  split
  · rename_i data' heq
    rw [hd] at heq
    exact absurd heq.symm (Option.some_ne_none _)
  · rfl

/-- A tag value matching none of the sentinel tags falls through to
`ClassMapLookUpFailError`, whose message names the tag and the mapping. -/
theorem StrongJson.decodeSentinel_unknown (e : StrongJson) (items : List (PyVal × PyVal))
    (tagV : PyVal)
    (h1 : tagV ≠ .str "dict") (h2 : tagV ≠ .str "tuple") (h3 : tagV ≠ .str "date")
    (h4 : tagV ≠ .str "datetime") (h5 : tagV ≠ .str "set") (h6 : tagV ≠ .str "float")
    (h7 : tagV ≠ .str "pandas.DataFrame") (h8 : tagV ≠ .str "numpy.ndarray") :
    e.decodeSentinel items tagV = .error (.classMapLookUpFail tagV (.dict items)) := by
  rw [StrongJson.decodeSentinel]
  rw [if_neg h1, if_neg h2, if_neg h3, if_neg h4, if_neg h5, if_neg h6, if_neg h7, if_neg h8]

/-- A mapping without the type-tag field decodes as a plain string-keyed
mapping: keys as-is, values decoded. -/
theorem StrongJson.decodeMapping_notag (e : StrongJson) (items : List (PyVal × PyVal))
    (h : dictLookup items (.str e.type_key) = Option.none) :
    e.decodeMapping items =
      match e.decodeVals items with
      | .ok ps => .ok (mkDict ps)
      | .error err => .error err := by
  rw [StrongJson.decodeMapping, h]

/-- An unhashable tag value raises `TypeError` from the class-map
membership test, before any other dispatch. -/
theorem StrongJson.decodeMapping_unhashable (e : StrongJson) (items : List (PyVal × PyVal))
    (tagV : PyVal)
    (h : dictLookup items (.str e.type_key) = some tagV)
    (hh : pyHashable tagV = false) :
    e.decodeMapping items = .error (.typeError "unhashable type") := by
  rw [StrongJson.decodeMapping, h]
  simp [hh]

/-- A string tag registered as a `FromJsonable` class delegates to the
class's own `from_json_dict` on the full raw mapping. -/
theorem StrongJson.decodeMapping_fromJsonable (e : StrongJson) (items : List (PyVal × PyVal))
    (s : String) (f : PyVal → Except PyError PyVal)
    (h : dictLookup items (.str e.type_key) = some (.str s))
    (hcm : lookupCM e.class_map s = some (.fromJsonable f)) :
    e.decodeMapping items = f (.dict items) := by
  rw [StrongJson.decodeMapping, h]
  simp [pyHashable, hcm]

/-- A string tag registered as an `Enum` looks the data field up among the
member names, raising `KeyError` when the data field is absent or names no
member. -/
theorem StrongJson.decodeMapping_enum (e : StrongJson) (items : List (PyVal × PyVal))
    (s cls : String) (members : List String)
    (h : dictLookup items (.str e.type_key) = some (.str s))
    (hcm : lookupCM e.class_map s = some (.enumClass cls members)) :
    e.decodeMapping items =
      match dictLookup items (.str e.data_key) with
      | Option.none => .error (.keyError (.str e.data_key))
      | some data =>
          match data with
          | .str nm =>
              if members.contains nm then .ok (.enumMember cls nm)
              else .error (.keyError data)
          | _ => .error (.keyError data) := by
  rw [StrongJson.decodeMapping, h]
  simp [pyHashable, hcm]

/-- A string tag registered as a plain class: collect the no-default
constructor parameters absent from the mapping; if any, raise
`MissingParameterError` (before decoding any field or constructing
anything); otherwise decode the parameter-named fields and construct. -/
theorem StrongJson.decodeMapping_plainClass (e : StrongJson) (items : List (PyVal × PyVal))
    (s cls : String) (params : List Param)
    (h : dictLookup items (.str e.type_key) = some (.str s))
    (hcm : lookupCM e.class_map s = some (.plainClass cls params)) :
    e.decodeMapping items =
      (let missing := (params.filter
          (fun p => p.default.isNone && !keyMem items (.str p.name))).map Param.name
       if missing.isEmpty then
         match e.decodeTmp params items with
         | .ok tmp => .ok (.obj cls (constructParams params tmp))
         | .error err => .error err
       else
         .error (.missingParameter missing (.str s) (items.map Prod.fst))) := by
  rw [StrongJson.decodeMapping, h]
  simp [pyHashable, hcm]

/-- A string tag not in the class map falls through to the sentinel
chain. -/
theorem StrongJson.decodeMapping_unregistered (e : StrongJson) (items : List (PyVal × PyVal))
    (s : String)
    (h : dictLookup items (.str e.type_key) = some (.str s))
    (hcm : lookupCM e.class_map s = Option.none) :
    e.decodeMapping items = e.decodeSentinel items (.str s) := by
  rw [StrongJson.decodeMapping, h]
  simp [pyHashable, hcm]

/-- A hashable non-string tag value is not in the string-keyed class map
and goes straight to the sentinel chain. -/
theorem StrongJson.decodeMapping_nonstr (e : StrongJson) (items : List (PyVal × PyVal))
    (tagV : PyVal)
    (h : dictLookup items (.str e.type_key) = some tagV)
    (hh : pyHashable tagV = true)
    (hs : tagV.isStr = false) :
    e.decodeMapping items = e.decodeSentinel items tagV := by
  rw [StrongJson.decodeMapping, h]
  cases tagV <;> simp_all [pyHashable, PyVal.isStr]

/-- Unfolding lemmas for the decoder's constructor dispatch. -/
theorem StrongJson.from_json_dict_dict (e : StrongJson) (items : List (PyVal × PyVal)) :
    e.default_from_json_dict (.dict items) = e.decodeMapping items := by
  simp [StrongJson.default_from_json_dict]

/-- `OrderedDict` input takes the same mapping branch as `dict`. -/
theorem StrongJson.from_json_dict_odict (e : StrongJson) (items : List (PyVal × PyVal)) :
    e.default_from_json_dict (.odict items) = e.decodeMapping items := by
  simp [StrongJson.default_from_json_dict]

/-- Decoding the records of a `"dict"` envelope: a well-formed record is
subscripted for `'key'` and `'value'`, both are decoded (key first), and
the rest of the records follow. -/
theorem StrongJson.decodeRecords_cons (e : StrongJson) (ritems : List (PyVal × PyVal))
    (rest : List PyVal) (kJ vJ k v : PyVal)
    (hk' : dictLookup ritems (.str "key") = some kJ)
    (hv' : dictLookup ritems (.str "value") = some vJ)
    (hdk : e.default_from_json_dict kJ = .ok k)
    (hdv : e.default_from_json_dict vJ = .ok v) :
    e.decodeRecords (.dict ritems :: rest) =
      match e.decodeRecords rest with
      | .ok ps => .ok ((k, v) :: ps)
      | .error err => .error err := by
  rw [StrongJson.decodeRecords]
  split
  · rename_i heq
    rw [hk'] at heq
    exact absurd heq (Option.some_ne_none _)
  · rename_i kJ' heq
    rw [hk'] at heq
    injection heq with heq2
    subst heq2
    simp only [hdk]
    split
    · rename_i heq2
      rw [hv'] at heq2
      exact absurd heq2 (Option.some_ne_none _)
    · rename_i vJ' heq2
      rw [hv'] at heq2
      injection heq2 with heq3
      subst heq3
      simp only [hdv]

/-- Absence of a key is absence from the key list. -/
theorem dictLookup_eq_none_iff (items : List (PyVal × PyVal)) (key : PyVal) :
    dictLookup items key = Option.none ↔ key ∉ items.map Prod.fst := by
  induction items with
  | nil => simp [dictLookup]
  | cons p rest ih =>
    obtain ⟨k, v⟩ := p
    rw [dictLookup]
    by_cases hk : k = key
    · subst hk
      simp
    · rw [if_neg hk, ih]
      have hne : ¬ key = k := fun hkk => hk hkk.symm
      simp [hne]

/-- `lastLookup` misses keys absent from the key list. -/
theorem lastLookup_eq_none (items : List (PyVal × PyVal)) (key : PyVal)
    (h : key ∉ items.map Prod.fst) : lastLookup items key = Option.none := by
  induction items with
  | nil => rfl
  | cons p rest ih =>
    obtain ⟨k, v⟩ := p
    have h1 : ¬ k = key := by
      intro hkk
      exact h (by simp [hkk])
    have h2 : key ∉ rest.map Prod.fst := by
      intro hm
      exact h (by simp [hm])
    rw [lastLookup, ih h2]
    simp [h1]

/-- Building a dict from assignments with pairwise-distinct keys (none of
them already seen) is the identity. -/
theorem mkDictGo_nodup (items : List (PyVal × PyVal)) (seen : List PyVal)
    (hnd : (items.map Prod.fst).Nodup) (hdis : ∀ p ∈ items, p.1 ∉ seen) :
    mkDictGo seen items = items := by
  induction items generalizing seen with
  | nil => rfl
  | cons p rest ih =>
    obtain ⟨k, v⟩ := p
    rw [List.map_cons, List.nodup_cons] at hnd
    have hdis2 : ∀ q ∈ rest, q.1 ∉ k :: seen := by
      intro q hq hmem
      rcases List.mem_cons.mp hmem with hqk | hqs
      · apply hnd.1
        rw [← hqk]
        exact List.mem_map.mpr ⟨q, hq, rfl⟩
      · exact hdis q (List.mem_cons_of_mem _ hq) hqs
    rw [mkDictGo, if_neg (hdis (k, v) (by simp)),
        lastLookup_eq_none rest k hnd.1, Option.getD_none,
        ih (k :: seen) hnd.2 hdis2]

/-- A Python dict built from distinct keys keeps them in order. -/
theorem mkDictList_nodup (items : List (PyVal × PyVal))
    (hnd : (items.map Prod.fst).Nodup) : mkDictList items = items :=
  mkDictGo_nodup items [] hnd (by simp)

/-- `mkDict` on distinct keys is the plain dict of those pairs. -/
theorem mkDict_nodup (items : List (PyVal × PyVal))
    (hnd : (items.map Prod.fst).Nodup) : mkDict items = .dict items := by
  rw [mkDict, mkDictList_nodup items hnd]

/-- Keys absent from the assignments are absent from the built dict. -/
theorem dictLookup_mkDictGo_none (items : List (PyVal × PyVal)) (seen : List PyVal)
    (key : PyVal) (h : dictLookup items key = Option.none) :
    dictLookup (mkDictGo seen items) key = Option.none := by
  induction items generalizing seen with
  | nil => rfl
  | cons p rest ih =>
    obtain ⟨k, v⟩ := p
    rw [dictLookup] at h
    split at h
    · exact absurd h (Option.some_ne_none _)
    · rename_i hk
      rw [mkDictGo]
      split
      · exact ih seen h
      · rw [dictLookup, if_neg hk]
        exact ih (k :: seen) h

/-- `set(...)` of a list with no duplicates is that list. -/
theorem dedupFirst_nodup (xs : List PyVal) (h : xs.Nodup) : dedupFirst xs = xs := by
  induction xs with
  | nil => simp [dedupFirst]
  | cons x rest ih =>
    rw [List.nodup_cons] at h
    rw [dedupFirst]
    have heq : rest.filter (fun y => !decide (y = x)) = rest := by
      apply List.filter_eq_self.mpr
      intro y hy
      simp
      intro hyx
      exact h.1 (hyx ▸ hy)
    rw [heq, ih h.2]

/-- JSON-primitive values: `None`, bools, ints, strings, finite floats —
exactly the values both codec directions pass through unchanged. -/
def isPrim : PyVal → Bool
  | .none => true
  | .bool _ => true
  | .int _ => true
  | .str _ => true
  | .float (.finite _) => true
  | _ => false

/-- Encoding a primitive returns it unchanged (encoder branches 9/10). -/
theorem encode_prim (e : StrongJson) (v : PyVal) (h : isPrim v = true) :
    e.default_to_json_dict v = v := by
  cases v
  case float f =>
    cases f
    case finite q => rw [StrongJson.default_to_json_dict]
    all_goals simp [isPrim] at h
  case none => rw [StrongJson.default_to_json_dict]
  case bool b => rw [StrongJson.default_to_json_dict]
  case int n => rw [StrongJson.default_to_json_dict]
  case str s => rw [StrongJson.default_to_json_dict]
  all_goals simp [isPrim] at h

/-- Decoding a primitive returns it unchanged (decoder rule 6). -/
theorem decode_prim (e : StrongJson) (v : PyVal) (h : isPrim v = true) :
    e.default_from_json_dict v = .ok v := by
  cases v
  case float f => rw [StrongJson.default_from_json_dict]
  case none => rw [StrongJson.default_from_json_dict]
  case bool b => rw [StrongJson.default_from_json_dict]
  case int n => rw [StrongJson.default_from_json_dict]
  case str s => rw [StrongJson.default_from_json_dict]
  all_goals simp [isPrim] at h

/-- Primitives are hashable. -/
theorem prim_hashable (v : PyVal) (h : isPrim v = true) : pyHashable v = true := by
  cases v <;> simp_all [isPrim, pyHashable]

/-- Encoding a list of primitives is the identity. -/
theorem encodeL_prim (e : StrongJson) (xs : List PyVal)
    (h : ∀ x ∈ xs, isPrim x = true) : e.encodeL xs = xs := by
  induction xs with
  | nil => rw [StrongJson.encodeL]
  | cons x rest ih =>
    rw [StrongJson.encodeL, encode_prim e x (h x (by simp)),
      ih (fun y hy => h y (by simp [hy]))]

/-- Element-wise roundtrip lifts to the list payload helpers. -/
theorem decodeL_encodeL (e : StrongJson) (xs : List PyVal)
    (h : ∀ x ∈ xs, e.default_from_json_dict (e.default_to_json_dict x) = .ok x) :
    e.decodeL (e.encodeL xs) = .ok xs := by
  induction xs with
  | nil => simp [StrongJson.encodeL, StrongJson.decodeL]
  | cons x rest ih =>
    have hx := h x (by simp)
    have hrest : ∀ y ∈ rest,
        e.default_from_json_dict (e.default_to_json_dict y) = .ok y :=
      fun y hy => h y (by simp [hy])
    rw [StrongJson.encodeL, StrongJson.decodeL]
    simp only [hx, ih hrest]

/-- Element-wise roundtrip lifts to the `"dict"` envelope records. -/
theorem decodeRecords_encodeRecords (e : StrongJson) (items : List (PyVal × PyVal))
    (h1 : ∀ p ∈ items, e.default_from_json_dict (e.default_to_json_dict p.1) = .ok p.1)
    (h2 : ∀ p ∈ items, e.default_from_json_dict (e.default_to_json_dict p.2) = .ok p.2) :
    e.decodeRecords (e.encodeRecords items) = .ok items := by
  induction items with
  | nil => simp [StrongJson.encodeRecords, StrongJson.decodeRecords]
  | cons p rest ih =>
    obtain ⟨k, v⟩ := p
    rw [StrongJson.encodeRecords, mkDict_nodup _ (by simp)]
    rw [StrongJson.decodeRecords_cons e _ _ _ _ k v
      (by simp [dictLookup]) (by simp [dictLookup])
      (h1 (k, v) (by simp)) (h2 (k, v) (by simp))]
    simp only [ih (fun q hq => h1 q (by simp [hq])) (fun q hq => h2 q (by simp [hq]))]

/-- The values the default codec (`strong_json`) roundtrips: JSON
primitives, the three non-finite floats, lists/tuples of roundtrippable
values, distinct-key dicts of roundtrippable keys and values, sets of
distinct primitives, dates and datetimes.  `OrderedDict` is excluded (it
decodes to a builtin dict, claim C9) and so are sets whose elements
encode to envelopes (the set decoder does not decode elements, claim
C1). -/
inductive Roundtrippable : PyVal → Prop
  | prim (v : PyVal) (h : isPrim v = true) : Roundtrippable v
  | nanF : Roundtrippable (.float .nan)
  | infF : Roundtrippable (.float .inf)
  | neginfF : Roundtrippable (.float .neginf)
  | list (xs : List PyVal) (h : ∀ v ∈ xs, Roundtrippable v) : Roundtrippable (.list xs)
  | tuple (xs : List PyVal) (h : ∀ v ∈ xs, Roundtrippable v) : Roundtrippable (.tuple xs)
  | dict (items : List (PyVal × PyVal))
      (hk : ∀ p ∈ items, Roundtrippable p.1)
      (hv : ∀ p ∈ items, Roundtrippable p.2)
      (hnd : (items.map Prod.fst).Nodup) : Roundtrippable (.dict items)
  | set (xs : List PyVal) (h : ∀ x ∈ xs, isPrim x = true) (hnd : xs.Nodup) :
      Roundtrippable (.set xs)
  | date (y mo d : Int) : Roundtrippable (.date y mo d)
  | datetime (y mo d h mi s us : Int) : Roundtrippable (.datetime y mo d h mi s us)

/-- Decode-after-encode is the identity on the roundtrippable grammar,
for the default codec. -/
theorem strong_json_roundtrip (v : PyVal) (h : Roundtrippable v) :
    strong_json.default_from_json_dict (strong_json.default_to_json_dict v) = .ok v := by
  induction h with
  | prim v hp => rw [encode_prim _ v hp, decode_prim _ v hp]
  | nanF =>
    rw [StrongJson.default_to_json_dict, mkDict_nodup _ (by simp [strong_json]),
      StrongJson.from_json_dict_dict,
      StrongJson.decodeMapping_unregistered _ _ "float"
        (by simp [strong_json, dictLookup]) (by simp [strong_json, lookupCM]),
      StrongJson.decodeSentinel_float _ _ (.str "nan")
        (by simp [strong_json, dictLookup])]
    have hf : pyFloatOf (.str "nan") = .ok .nan := by decide
    simp only [hf]
  | infF =>
    rw [StrongJson.default_to_json_dict, mkDict_nodup _ (by simp [strong_json]),
      StrongJson.from_json_dict_dict,
      StrongJson.decodeMapping_unregistered _ _ "float"
        (by simp [strong_json, dictLookup]) (by simp [strong_json, lookupCM]),
      StrongJson.decodeSentinel_float _ _ (.str "inf")
        (by simp [strong_json, dictLookup])]
    have hf : pyFloatOf (.str "inf") = .ok .inf := by decide
    simp only [hf]
  | neginfF =>
    rw [StrongJson.default_to_json_dict, mkDict_nodup _ (by simp [strong_json]),
      StrongJson.from_json_dict_dict,
      StrongJson.decodeMapping_unregistered _ _ "float"
        (by simp [strong_json, dictLookup]) (by simp [strong_json, lookupCM]),
      StrongJson.decodeSentinel_float _ _ (.str "-inf")
        (by simp [strong_json, dictLookup])]
    have hf : pyFloatOf (.str "-inf") = .ok .neginf := by decide
    simp only [hf]
  | list xs hxs ih =>
    rw [StrongJson.default_to_json_dict, StrongJson.default_from_json_dict]
    simp only [decodeL_encodeL strong_json xs ih]
  | tuple xs hxs ih =>
    rw [StrongJson.default_to_json_dict, mkDict_nodup _ (by simp [strong_json]),
      StrongJson.from_json_dict_dict,
      StrongJson.decodeMapping_unregistered _ _ "tuple"
        (by simp [strong_json, dictLookup]) (by simp [strong_json, lookupCM]),
      StrongJson.decodeSentinel_tuple _ _ (strong_json.encodeL xs)
        (by simp [strong_json, dictLookup])]
    simp only [decodeL_encodeL strong_json xs ih]
  | dict items hk hv hnd ihk ihv =>
    cases items with
    | nil =>
      rw [StrongJson.default_to_json_dict, StrongJson.from_json_dict_dict,
        StrongJson.decodeMapping_notag _ _ (by simp [dictLookup]),
        StrongJson.decodeVals]
      simp [mkDict, mkDictList, mkDictGo]
    | cons p rest =>
      rw [StrongJson.default_to_json_dict, if_pos (by simp [strong_json]),
        mkDict_nodup _ (by simp [strong_json]),
        StrongJson.from_json_dict_dict,
        StrongJson.decodeMapping_unregistered _ _ "dict"
          (by simp [strong_json, dictLookup]) (by simp [strong_json, lookupCM]),
        StrongJson.decodeSentinel_dict _ _ (strong_json.encodeRecords (p :: rest))
          (by simp [strong_json, dictLookup])]
      simp only [decodeRecords_encodeRecords strong_json (p :: rest) ihk ihv]
      rw [mkDict_nodup _ hnd]
  | set xs hprim hnd =>
    rw [StrongJson.default_to_json_dict, encodeL_prim strong_json xs hprim,
      mkDict_nodup _ (by simp [strong_json]),
      StrongJson.from_json_dict_dict,
      StrongJson.decodeMapping_unregistered _ _ "set"
        (by simp [strong_json, dictLookup]) (by simp [strong_json, lookupCM]),
      StrongJson.decodeSentinel_set _ _ xs (by simp [strong_json, dictLookup])]
    rw [if_pos (List.all_eq_true.mpr (fun x hx => prim_hashable x (hprim x hx))),
      dedupFirst_nodup xs hnd]
  | date y mo d =>
    rw [StrongJson.default_to_json_dict, mkDict_nodup _ (by simp [strong_json]),
      StrongJson.from_json_dict_dict,
      StrongJson.decodeMapping_unregistered _ _ "date"
        (by simp [strong_json, dictLookup]) (by simp [strong_json, lookupCM]),
      StrongJson.decodeSentinel_date]
    simp [strong_json, buildDate, dictLookup, PyVal.isStr]
  | datetime y mo d h mi s us =>
    rw [StrongJson.default_to_json_dict, mkDict_nodup _ (by simp [strong_json]),
      StrongJson.from_json_dict_dict,
      StrongJson.decodeMapping_unregistered _ _ "datetime"
        (by simp [strong_json, dictLookup]) (by simp [strong_json, lookupCM]),
      StrongJson.decodeSentinel_datetime]
    simp [strong_json, buildDatetime, dictLookup, PyVal.isStr, optIntField]

/-! ### Claims -/

/-- C1.  The set decoder `set(data)` is applied to the *raw* payload:
with a tuple element, the payload elements are envelopes (Python dicts),
which are unhashable, so decoding the encoding of `{(1, 2)}` raises
`TypeError` instead of returning a set with the same elements (the
`spec`'s set roundtrip property fails as soon as an element encodes to an
envelope). -/
theorem c1_set_of_tuple_decode_fails :
    strong_json.default_from_json_dict
      (strong_json.default_to_json_dict (.set [.tuple [.int 1, .int 2]])) =
      .error (.typeError "unhashable type") := by
  have henc : strong_json.default_to_json_dict (.set [.tuple [.int 1, .int 2]]) =
      .dict [(.str "__type__", .str "set"),
             (.str "__data__", .list [.dict [(.str "__type__", .str "tuple"),
               (.str "__data__", .list [.int 1, .int 2])]])] := by
    simp [StrongJson.default_to_json_dict, StrongJson.encodeL, strong_json, mkDict,
      mkDictList, mkDictGo, lastLookup]
  rw [henc, StrongJson.from_json_dict_dict,
    StrongJson.decodeMapping_unregistered _ _ "set"
      (by simp [strong_json, dictLookup]) (by simp [strong_json, lookupCM]),
    StrongJson.decodeSentinel_set _ _
      [.dict [(.str "__type__", .str "tuple"), (.str "__data__", .list [.int 1, .int 2])]]
      (by simp [strong_json, dictLookup]),
    if_neg (by simp [pyHashable])]

/-- C6 (counterexample).  The claim quantifies over *every* tuple; a tuple
containing a set that itself contains a tuple fails to roundtrip, because
the set decoder does not decode its elements (see C1): the decode errors
instead of producing an element-wise equal tuple. -/
theorem c6_counterexample :
    strong_json.default_from_json_dict
      (strong_json.default_to_json_dict (.tuple [.set [.tuple [.int 1, .int 2]]])) =
      .error (.typeError "unhashable type") := by
  have henc : strong_json.default_to_json_dict (.tuple [.set [.tuple [.int 1, .int 2]]]) =
      .dict [(.str "__type__", .str "tuple"),
             (.str "__data__", .list [.dict [(.str "__type__", .str "set"),
               (.str "__data__", .list [.dict [(.str "__type__", .str "tuple"),
                 (.str "__data__", .list [.int 1, .int 2])]])]])] := by
    simp [StrongJson.default_to_json_dict, StrongJson.encodeL, strong_json, mkDict,
      mkDictList, mkDictGo, lastLookup]
  have hset : strong_json.default_from_json_dict
      (.dict [(.str "__type__", .str "set"),
        (.str "__data__", .list [.dict [(.str "__type__", .str "tuple"),
          (.str "__data__", .list [.int 1, .int 2])]])]) =
      .error (.typeError "unhashable type") := by
    rw [StrongJson.from_json_dict_dict,
      StrongJson.decodeMapping_unregistered _ _ "set"
        (by simp [strong_json, dictLookup]) (by simp [strong_json, lookupCM]),
      StrongJson.decodeSentinel_set _ _
        [.dict [(.str "__type__", .str "tuple"), (.str "__data__", .list [.int 1, .int 2])]]
        (by simp [strong_json, dictLookup]),
      if_neg (by simp [pyHashable])]
  rw [henc, StrongJson.from_json_dict_dict,
    StrongJson.decodeMapping_unregistered _ _ "tuple"
      (by simp [strong_json, dictLookup]) (by simp [strong_json, lookupCM]),
    StrongJson.decodeSentinel_tuple _ _
      [.dict [(.str "__type__", .str "set"),
        (.str "__data__", .list [.dict [(.str "__type__", .str "tuple"),
          (.str "__data__", .list [.int 1, .int 2])]])]]
      (by simp [strong_json, dictLookup])]
  simp only [StrongJson.decodeL, hset]

/-- C6 (amended).  For every tuple whose elements are individually
roundtrippable (primitives, non-finite floats, nested lists, tuples,
distinct-key dicts, sets of distinct primitives, dates, datetimes),
`decode(encode(T))` is a tuple — the `tuple` constructor, not a plain
list — element-wise equal to `T`. -/
theorem c6_tuple_roundtrip (xs : List PyVal) (h : ∀ v ∈ xs, Roundtrippable v) :
    strong_json.default_from_json_dict (strong_json.default_to_json_dict (.tuple xs)) =
      .ok (.tuple xs) :=
  strong_json_roundtrip _ (Roundtrippable.tuple xs h)

/-- C6 (witness): a tuple containing an int, a nested tuple and a
non-string-keyed dict roundtrips. -/
theorem c6_tuple_roundtrip_witness :
    strong_json.default_from_json_dict (strong_json.default_to_json_dict
      (.tuple [.int 1, .tuple [.str "a"], .dict [(.int 2, .bool true)]])) =
      .ok (.tuple [.int 1, .tuple [.str "a"], .dict [(.int 2, .bool true)]]) := by
  apply c6_tuple_roundtrip
  intro v hv
  simp only [List.mem_cons, List.not_mem_nil, or_false] at hv
  rcases hv with rfl | rfl | rfl
  · exact .prim _ rfl
  · refine .tuple _ ?_
    intro w hw
    simp only [List.mem_cons, List.not_mem_nil, or_false] at hw
    subst hw
    exact .prim _ rfl
  · refine .dict _ ?_ ?_ (by simp)
    · intro p hp
      simp only [List.mem_cons, List.not_mem_nil, or_false] at hp
      subst hp
      exact .prim _ rfl
    · intro p hp
      simp only [List.mem_cons, List.not_mem_nil, or_false] at hp
      subst hp
      exact .prim _ rfl

/-- C8 (counterexample).  The sub-second field of a `"datetime"`-tagged
envelope is named `microsecond` (as the repository's own tests assert),
not `sub_second`: the claimed field set does not match the encoder. -/
theorem c8_counterexample :
    strong_json.default_to_json_dict (.datetime 2019 8 23 12 0 3 0) =
      .dict [(.str "__type__", .str "datetime"), (.str "year", .int 2019),
        (.str "month", .int 8), (.str "day", .int 23), (.str "hour", .int 12),
        (.str "minute", .int 0), (.str "second", .int 3), (.str "microsecond", .int 0)] ∧
    keyMem [(.str "__type__", .str "datetime"), (.str "year", .int 2019),
        (.str "month", .int 8), (.str "day", .int 23), (.str "hour", .int 12),
        (.str "minute", .int 0), (.str "second", .int 3), (.str "microsecond", .int 0)]
      (.str "sub_second") = false := by
  constructor
  · rw [StrongJson.default_to_json_dict, mkDict_nodup _ (by simp [strong_json])]
    simp [strong_json]
  · simp [keyMem, dictLookup]

/-- C8 (amended).  For every datetime value the encoder produces a
`"datetime"`-tagged inline-field envelope whose field set is exactly
`year`, `month`, `day`, `hour`, `minute`, `second` and the sub-second
field named `microsecond`. -/
theorem c8_datetime_fields (y mo d h mi s us : Int) :
    strong_json.default_to_json_dict (.datetime y mo d h mi s us) =
      .dict [(.str "__type__", .str "datetime"), (.str "year", .int y), (.str "month", .int mo),
        (.str "day", .int d), (.str "hour", .int h), (.str "minute", .int mi),
        (.str "second", .int s), (.str "microsecond", .int us)] := by
  rw [StrongJson.default_to_json_dict, mkDict_nodup _ (by simp [strong_json])]
  simp [strong_json]

/-- A codec with a custom type-tag key (and a registered class), as the
configuration surface allows. -/
def at_json : StrongJson :=
  { class_map := [("SimpleClass", .plainClass "SimpleClass"
      [{ name := "msg", default := Option.none }])],
    type_key := "@type", data_key := "@data", treat_dict_as_ordered_dict := true }

/-- C7.  Encoding a reflected plain object under a codec whose type-tag
key is `"@type"` still produces the literal key `"__type__"` (hardcoded
in `simple_object_dump`), and the envelope has no `"@type"` field at all
— the configured per-instance key is ignored by the reflection
fallback. -/
theorem c7_fallback_ignores_configured_type_key :
    at_json.default_to_json_dict (.obj "SimpleClass" [("msg", .str "hello")]) =
      .dict [(.str "__type__", .str "SimpleClass"), (.str "msg", .str "hello")] ∧
    dictLookup [(.str "__type__", .str "SimpleClass"), (.str "msg", .str "hello")]
      (.str "@type") = Option.none := by
  constructor
  · rw [StrongJson.default_to_json_dict_obj, StrongJson.simple_object_dump]
    simp [StrongJson.encodeFields, StrongJson.default_to_json_dict, mkDictGo, lastLookup]
  · simp [dictLookup]

/-- The codec of `test_treat_as_normal_dict`:
`StrongJson(class_map={}, treat_dict_as_ordered_dict=False)`. -/
def plain_json : StrongJson :=
  { class_map := [], type_key := "__type__", data_key := "__data__",
    treat_dict_as_ordered_dict := false }

/-- The compact encoding keeps the input's keys, so keys absent from the
input are absent from the output. -/
theorem dictLookup_encodeCompact_none (e : StrongJson) (items : List (PyVal × PyVal))
    (key : PyVal) (h : dictLookup items key = Option.none) :
    dictLookup (e.encodeCompact items) key = Option.none := by
  induction items with
  | nil => rw [StrongJson.encodeCompact]; exact h
  | cons p rest ih =>
    obtain ⟨k, v⟩ := p
    rw [dictLookup] at h
    split at h
    · exact absurd h (Option.some_ne_none _)
    · rename_i hk
      rw [StrongJson.encodeCompact, dictLookup, if_neg hk]
      exact ih h

/-- The encoded value is a `"dict"` envelope: a mapping whose configured
type key holds the tag `"dict"`. -/
def isDictEnvelope (e : StrongJson) : PyVal → Bool
  | .dict items => decide (dictLookup items (.str e.type_key) = some (.str "dict"))
  | _ => false

/-- C2 (counterexample).  Under `treat_dict_as_ordered_dict=False`, a
mapping whose *first* key is a string but that contains a non-string key
is encoded in the compact plain form anyway (the code inspects only the
first key), with the non-string key passed through and no envelope. -/
theorem c2_counterexample :
    plain_json.default_to_json_dict (.dict [(.str "a", .int 1), (.int 2, .int 3)]) =
      .dict [(.str "a", .int 1), (.int 2, .int 3)] ∧
    dictLookup [(.str "a", .int 1), (.int 2, .int 3)] (.str "__type__") = Option.none := by
  constructor
  · rw [StrongJson.default_to_json_dict, if_neg (by simp [plain_json, PyVal.isStr])]
    simp [StrongJson.encodeCompact, StrongJson.default_to_json_dict, mkDict, mkDictList,
      mkDictGo, lastLookup]
  · simp [dictLookup]

/-- C2 (amended).  For a non-empty mapping with no literal type-tag
field: under a codec configured to not treat mappings as order-preserving
the encoder produces the `"dict"` envelope exactly when the mapping's
*first* key is not a string — when the first key is a string the compact
plain form is produced even if later keys are not strings; a non-empty
`OrderedDict` is always enveloped, as is any non-empty mapping under the
order-preserving (default) configuration. -/
theorem c2_compact_form_condition (k0 v0 : PyVal) (rest : List (PyVal × PyVal))
    (hin : dictLookup ((k0, v0) :: rest) (.str "__type__") = Option.none) :
    isDictEnvelope plain_json
      (plain_json.default_to_json_dict (.dict ((k0, v0) :: rest))) = !k0.isStr ∧
    isDictEnvelope plain_json
      (plain_json.default_to_json_dict (.odict ((k0, v0) :: rest))) = true ∧
    isDictEnvelope strong_json
      (strong_json.default_to_json_dict (.dict ((k0, v0) :: rest))) = true := by
  refine ⟨?_, ?_, ?_⟩
  · by_cases hstr : k0.isStr = true
    · rw [hstr, StrongJson.default_to_json_dict, if_neg (by simp [plain_json, hstr])]
      rw [mkDict]
      rw [isDictEnvelope]
      have hnone : dictLookup (mkDictGo [] (plain_json.encodeCompact ((k0, v0) :: rest)))
          (.str plain_json.type_key) = Option.none := by
        apply dictLookup_mkDictGo_none
        apply dictLookup_encodeCompact_none
        simpa [plain_json] using hin
      simp [mkDictList, hnone]
    · rw [Bool.not_eq_true] at hstr
      rw [hstr, StrongJson.default_to_json_dict, if_pos (by simp [plain_json, hstr])]
      rw [mkDict_nodup _ (by simp [plain_json]), isDictEnvelope]
      simp [plain_json, dictLookup]
  · rw [StrongJson.default_to_json_dict, mkDict_nodup _ (by simp [plain_json]),
      isDictEnvelope]
    simp [plain_json, dictLookup]
  · rw [StrongJson.default_to_json_dict, if_pos (by simp [strong_json]),
      mkDict_nodup _ (by simp [strong_json]), isDictEnvelope]
    simp [strong_json, dictLookup]

/-- C2 (witness): `{'a': 1, 2: 3}` (first key a string, second not) under
the non-ordered codec is *not* encoded as an envelope, while the same
pairs as an `OrderedDict` or under the default codec are. -/
theorem c2_compact_form_condition_witness :
    isDictEnvelope plain_json
      (plain_json.default_to_json_dict (.dict [(.str "a", .int 1), (.int 2, .int 3)])) =
      !(PyVal.str "a").isStr ∧
    isDictEnvelope plain_json
      (plain_json.default_to_json_dict (.odict [(.str "a", .int 1), (.int 2, .int 3)])) =
      true ∧
    isDictEnvelope strong_json
      (strong_json.default_to_json_dict (.dict [(.str "a", .int 1), (.int 2, .int 3)])) =
      true := by
  apply c2_compact_form_condition
  simp [dictLookup]

/-- C3 (counterexample).  Decoding a `"float"`-tagged envelope whose data
string is `"3.14"` *succeeds* with the parsed value (CPython's `float`
accepts any float literal), contradicting the claim that every data
string other than `"nan"`/`"inf"`/`"-inf"` fails. -/
theorem c3_counterexample :
    strong_json.default_from_json_dict
      (.dict [(.str "__type__", .str "float"), (.str "__data__", .str "3.14")]) =
      .ok (.float (.finite ((157 : Rat) / 50))) := by
  rw [StrongJson.from_json_dict_dict,
    StrongJson.decodeMapping_unregistered _ _ "float"
      (by simp [strong_json, dictLookup]) (by simp [strong_json, lookupCM]),
    StrongJson.decodeSentinel_float _ _ (.str "3.14")
      (by simp [strong_json, dictLookup])]
  have hp : pyFloatOfString "3.14" = some (.finite ((157 : Rat) / 50)) := by
    rw [pyFloatOfString]
    have hs : signSplit ("3.14".toList.map Char.toLower) = (1, ['3', '.', '1', '4']) := by
      decide
    simp only [hs]
    rw [if_neg (by decide), if_neg (by decide)]
    have hd : parseDecimal ['3', '.', '1', '4'] = some (314, -2) := by decide
    simp only [hd]
    rw [if_neg (by decide)]
    have h2 : (-(-2 : Int)).toNat = 2 := rfl
    rw [h2]
    simp only [Option.some.injEq, PyFloat.finite.injEq]
    norm_num
  rw [pyFloatOf]
  simp only [hp]

/-- C3 (amended).  Decoding a `"float"`-tagged envelope applies Python's
`float` to the data string: it succeeds exactly on strings `float`
accepts — the three sentinels `"nan"`/`"inf"`/`"-inf"` yield NaN and the
two infinities, but other accepted literals such as `"3.14"` or
`"infinity"` succeed too — and raises `ValueError` (propagated
immediately) on strings `float` rejects. -/
theorem c3_float_decode_parses :
    (∀ s : String, strong_json.default_from_json_dict
      (.dict [(.str "__type__", .str "float"), (.str "__data__", .str s)]) =
      (match pyFloatOfString s with
       | some f => .ok (.float f)
       | Option.none =>
           .error (.valueError ("could not convert string to float: " ++ s)))) ∧
    pyFloatOfString "nan" = some .nan ∧
    pyFloatOfString "inf" = some .inf ∧
    pyFloatOfString "-inf" = some .neginf ∧
    pyFloatOfString "infinity" = some .inf ∧
    pyFloatOfString "xyz" = Option.none := by
  refine ⟨?_, by decide, by decide, by decide, by decide, by decide⟩
  intro s
  rw [StrongJson.from_json_dict_dict,
    StrongJson.decodeMapping_unregistered _ _ "float"
      (by simp [strong_json, dictLookup]) (by simp [strong_json, lookupCM]),
    StrongJson.decodeSentinel_float _ _ (.str s) (by simp [strong_json, dictLookup]),
    pyFloatOf]
  cases hps : pyFloatOfString s <;> simp [hps]

/-- C4.  Decoding an envelope whose tag names a registered plain class:
if any constructor parameter without a default is absent from the
mapping, decoding fails with `MissingParameterError` naming the full
missing-parameter list, the type tag and the mapping's keys — and it does
so unconditionally, before decoding any field value or constructing
anything (the first conjunct needs no assumption about the fields).  If
no no-default parameter is absent, the object is constructed from the
decoded parameter-named fields, with declared defaults filling the
absent defaulted parameters (`constructParams`). -/
theorem c4_missing_parameter_check (e : StrongJson) (items : List (PyVal × PyVal))
    (tag cls : String) (params : List Param)
    (htag : dictLookup items (.str e.type_key) = some (.str tag))
    (hcm : lookupCM e.class_map tag = some (.plainClass cls params)) :
    (((params.filter (fun p => p.default.isNone && !keyMem items (.str p.name))).map
        Param.name) ≠ [] →
      e.default_from_json_dict (.dict items) =
        .error (.missingParameter
          ((params.filter (fun p => p.default.isNone && !keyMem items (.str p.name))).map
            Param.name)
          (.str tag) (items.map Prod.fst))) ∧
    (((params.filter (fun p => p.default.isNone && !keyMem items (.str p.name))).map
        Param.name) = [] →
      ∀ tmp, e.decodeTmp params items = .ok tmp →
        e.default_from_json_dict (.dict items) =
          .ok (.obj cls (constructParams params tmp))) := by
  rw [StrongJson.from_json_dict_dict,
    StrongJson.decodeMapping_plainClass e items tag cls params htag hcm]
  constructor
  · intro hne
    rw [if_neg (by simpa [List.isEmpty_iff] using hne)]
  · intro heq tmp htmp
    rw [if_pos (by simpa [List.isEmpty_iff] using heq)]
    simp only [htmp]

/-- The codec of the repository's `test_missing_param` /
`test_optional_param` scenario: a registered plain class
`BadUser(first, last='default last')`. -/
def badUserJson : StrongJson :=
  { class_map := [("BadUser", .plainClass "BadUser"
      [{ name := "first", default := Option.none },
       { name := "last", default := some (.str "default last") }])],
    type_key := "__type__", data_key := "__data__",
    treat_dict_as_ordered_dict := true }

/-- C4 (witness): decoding `{'__type__': 'BadUser', 'first': 'hello'}`
constructs `BadUser('hello')` with the declared default for `last`, and
decoding `{'__type__': 'BadUser'}` raises `MissingParameterError` naming
`['first']`. -/
theorem c4_missing_parameter_check_witness :
    badUserJson.default_from_json_dict
      (.dict [(.str "__type__", .str "BadUser"), (.str "first", .str "hello")]) =
      .ok (.obj "BadUser" [("first", .str "hello"), ("last", .str "default last")]) ∧
    badUserJson.default_from_json_dict (.dict [(.str "__type__", .str "BadUser")]) =
      .error (.missingParameter ["first"] (.str "BadUser") [.str "__type__"]) := by
  constructor
  · have h := (c4_missing_parameter_check badUserJson
      [(.str "__type__", .str "BadUser"), (.str "first", .str "hello")]
      "BadUser" "BadUser"
      [{ name := "first", default := Option.none },
       { name := "last", default := some (.str "default last") }]
      (by simp [badUserJson, dictLookup]) (by simp [badUserJson, lookupCM])).2
    have hres := h (by simp [keyMem, dictLookup])
      [(.str "first", .str "hello")]
      (by simp [StrongJson.decodeTmp, badUserJson, paramMem,
        StrongJson.default_from_json_dict])
    simpa [constructParams, dictLookup] using hres
  · have h := (c4_missing_parameter_check badUserJson
      [(.str "__type__", .str "BadUser")]
      "BadUser" "BadUser"
      [{ name := "first", default := Option.none },
       { name := "last", default := some (.str "default last") }]
      (by simp [badUserJson, dictLookup]) (by simp [badUserJson, lookupCM])).1
    have hres := h (by simp [keyMem, dictLookup])
    simpa [keyMem, dictLookup] using hres

/-- C5 (counterexample).  A mapping whose tag value is the list `[1]` —
neither a registered type name nor a sentinel tag — does not raise
`ClassMapLookUpFailError`: the membership test `d[type_key] in
self.class_map` hashes the tag value first, so an unhashable tag raises
`TypeError` instead. -/
theorem c5_counterexample :
    strong_json.default_from_json_dict (.dict [(.str "__type__", .list [.int 1])]) =
      .error (.typeError "unhashable type") ∧
    PyError.isStrongJsonError (.typeError "unhashable type") = false := by
  refine ⟨?_, rfl⟩
  rw [StrongJson.from_json_dict_dict]
  exact StrongJson.decodeMapping_unhashable _ _ (.list [.int 1])
    (by simp [strong_json, dictLookup]) (by simp [pyHashable])

/-- C5 (amended).  For every mapping carrying the type-tag field with a
*hashable* tag value that is neither a registered type name nor one of
the built-in sentinel tags (`"dict"`, `"tuple"`, `"date"`, `"datetime"`,
`"set"`, `"float"`, `"pandas.DataFrame"`, `"numpy.ndarray"`), decoding
fails with `ClassMapLookUpFailError` naming the unknown tag; an
unhashable tag value (a list, dict or set) raises `TypeError` instead
(see the counterexample). -/
theorem c5_unknown_tag_lookup_fail (e : StrongJson) (items : List (PyVal × PyVal))
    (tagV : PyVal)
    (htag : dictLookup items (.str e.type_key) = some tagV)
    (hhash : pyHashable tagV = true)
    (hreg : ∀ s : String, tagV = .str s → lookupCM e.class_map s = Option.none)
    (hsent : tagV ∉ ([.str "dict", .str "tuple", .str "date", .str "datetime", .str "set",
        .str "float", .str "pandas.DataFrame", .str "numpy.ndarray"] : List PyVal)) :
    e.default_from_json_dict (.dict items) =
      .error (.classMapLookUpFail tagV (.dict items)) := by
  rw [StrongJson.from_json_dict_dict]
  simp only [List.mem_cons, List.not_mem_nil, or_false, not_or] at hsent
  obtain ⟨s1, s2, s3, s4, s5, s6, s7, s8⟩ := hsent
  by_cases hstr : tagV.isStr = true
  · obtain ⟨s, rfl⟩ : ∃ s, tagV = .str s := by
      cases tagV <;> simp [PyVal.isStr] at hstr
      exact ⟨_, rfl⟩
    rw [StrongJson.decodeMapping_unregistered _ _ s htag (hreg s rfl)]
    exact StrongJson.decodeSentinel_unknown _ _ _ s1 s2 s3 s4 s5 s6 s7 s8
  · rw [StrongJson.decodeMapping_nonstr _ _ tagV htag hhash (by simpa using hstr)]
    exact StrongJson.decodeSentinel_unknown _ _ _ s1 s2 s3 s4 s5 s6 s7 s8

/-- C5 (witness): the repository's `test_lookup_fail` input
`{'__type__': 'BadUser', 'first': 'hello', 'last': 'world'}` under the
default codec raises `ClassMapLookUpFailError` naming `'BadUser'`. -/
theorem c5_unknown_tag_lookup_fail_witness :
    strong_json.default_from_json_dict
      (.dict [(.str "__type__", .str "BadUser"), (.str "first", .str "hello"),
        (.str "last", .str "world")]) =
      .error (.classMapLookUpFail (.str "BadUser")
        (.dict [(.str "__type__", .str "BadUser"), (.str "first", .str "hello"),
          (.str "last", .str "world")])) := by
  apply c5_unknown_tag_lookup_fail
  · simp [strong_json, dictLookup]
  · simp [pyHashable]
  · intro s hs
    simp [strong_json, lookupCM]
  · simp

/-- Pointwise decode success on record pairs lifts to `decodeRecords`
over the corresponding `{'key': ..., 'value': ...}` record list. -/
theorem decodeRecords_of_forall2 (e : StrongJson) (rs ps : List (PyVal × PyVal))
    (hdec : List.Forall₂ (fun p q => e.default_from_json_dict p.1 = .ok q.1 ∧
        e.default_from_json_dict p.2 = .ok q.2) rs ps) :
    e.decodeRecords (rs.map (fun p => .dict [(.str "key", p.1), (.str "value", p.2)])) =
      .ok ps := by
  induction hdec with
  | nil => simp [StrongJson.decodeRecords]
  | cons hpq hrest ih =>
    rename_i p q rs' ps'
    rw [List.map_cons,
      StrongJson.decodeRecords_cons e _ _ p.1 p.2 q.1 q.2
        (by simp [dictLookup]) (by simp [dictLookup]) hpq.1 hpq.2]
    simp only [ih]

/-- C9.  Decoding a `"dict"`-tagged envelope whose data is a sequence of
`{'key': ..., 'value': ...}` records decodes both the key and the value
of every record recursively (`Forall₂` below relates raw records to their
decoded pairs) and returns a *builtin* dict — the `dict` constructor,
never `odict` — whose entries appear in the order of the data sequence
(the `Nodup` hypothesis rules out duplicate decoded keys, which a real
envelope produced from a dict cannot contain). -/
theorem c9_dict_envelope_builtin_dict (e : StrongJson)
    (rs ps items : List (PyVal × PyVal))
    (htag : dictLookup items (.str e.type_key) = some (.str "dict"))
    (hcm : lookupCM e.class_map "dict" = Option.none)
    (hdata : dictLookup items (.str e.data_key) =
      some (.list (rs.map (fun p => .dict [(.str "key", p.1), (.str "value", p.2)]))))
    (hdec : List.Forall₂ (fun p q => e.default_from_json_dict p.1 = .ok q.1 ∧
        e.default_from_json_dict p.2 = .ok q.2) rs ps)
    (hnd : (ps.map Prod.fst).Nodup) :
    e.default_from_json_dict (.dict items) = .ok (.dict ps) := by
  rw [StrongJson.from_json_dict_dict,
    StrongJson.decodeMapping_unregistered _ _ "dict" htag hcm,
    StrongJson.decodeSentinel_dict _ _ _ hdata]
  simp only [decodeRecords_of_forall2 e rs ps hdec, mkDict_nodup ps hnd]

/-- C9 (witness): the envelope an `OrderedDict` with a tuple key encodes
to decodes to a *builtin* dict with the decoded tuple key, in record
order. -/
theorem c9_dict_envelope_builtin_dict_witness :
    strong_json.default_from_json_dict
      (.dict [(.str "__type__", .str "dict"),
        (.str "__data__", .list
          [.dict [(.str "key", .dict [(.str "__type__", .str "tuple"),
              (.str "__data__", .list [.int 1])]),
            (.str "value", .str "x")],
           .dict [(.str "key", .str "a"), (.str "value", .int 7)]])]) =
      .ok (.dict [(.tuple [.int 1], .str "x"), (.str "a", .int 7)]) := by
  have hkey : strong_json.default_from_json_dict
      (.dict [(.str "__type__", .str "tuple"), (.str "__data__", .list [.int 1])]) =
      .ok (.tuple [.int 1]) := by
    rw [StrongJson.from_json_dict_dict,
      StrongJson.decodeMapping_unregistered _ _ "tuple"
        (by simp [strong_json, dictLookup]) (by simp [strong_json, lookupCM]),
      StrongJson.decodeSentinel_tuple _ _ [.int 1] (by simp [strong_json, dictLookup])]
    simp [StrongJson.decodeL, StrongJson.default_from_json_dict]
  apply c9_dict_envelope_builtin_dict strong_json
    [(.dict [(.str "__type__", .str "tuple"), (.str "__data__", .list [.int 1])], .str "x"),
     (.str "a", .int 7)]
  · simp [strong_json, dictLookup]
  · simp [strong_json, lookupCM]
  · simp [strong_json, dictLookup]
  · refine List.Forall₂.cons ⟨hkey, ?_⟩ (List.Forall₂.cons ⟨?_, ?_⟩ List.Forall₂.nil)
    · rw [StrongJson.default_from_json_dict]
    · rw [StrongJson.default_from_json_dict]
    · rw [StrongJson.default_from_json_dict]
  · simp

/-- C10.  Decoding a mapping whose tag is one of `"dict"`, `"tuple"`,
`"set"`, `"float"` (unregistered, so the sentinel branch applies) or a
registered enumeration, but which lacks the configured data-key field,
raises Python's `KeyError` — a plain key-lookup exception that is not one
of the codec's declared `StrongJsonError` classes — rather than producing
a value. -/
theorem c10_missing_data_key_keyerror (e : StrongJson) (items : List (PyVal × PyVal))
    (tag : String)
    (htag : dictLookup items (.str e.type_key) = some (.str tag))
    (hcase : (tag ∈ (["dict", "tuple", "set", "float"] : List String) ∧
        lookupCM e.class_map tag = Option.none) ∨
      (∃ cls members, lookupCM e.class_map tag = some (.enumClass cls members)))
    (hdk : dictLookup items (.str e.data_key) = Option.none) :
    e.default_from_json_dict (.dict items) = .error (.keyError (.str e.data_key)) ∧
    PyError.isStrongJsonError (.keyError (.str e.data_key)) = false := by
  refine ⟨?_, rfl⟩
  rw [StrongJson.from_json_dict_dict]
  rcases hcase with ⟨hmem, hcm⟩ | ⟨cls, members, hcm⟩
  · rw [StrongJson.decodeMapping_unregistered _ _ tag htag hcm]
    simp only [List.mem_cons, List.not_mem_nil, or_false] at hmem
    rcases hmem with rfl | rfl | rfl | rfl
    · exact StrongJson.decodeSentinel_dict_nodata _ _ hdk
    · exact StrongJson.decodeSentinel_tuple_nodata _ _ hdk
    · exact StrongJson.decodeSentinel_set_nodata _ _ hdk
    · exact StrongJson.decodeSentinel_float_nodata _ _ hdk
  · rw [StrongJson.decodeMapping_enum _ _ tag cls members htag hcm]
    simp only [hdk]

/-- C10 (witness): `{'__type__': 'set'}` under the default codec, and
`{'__type__': 'Color'}` under a codec with a registered `Color` enum,
both raise `KeyError('__data__')`. -/
theorem c10_missing_data_key_keyerror_witness :
    (strong_json.default_from_json_dict (.dict [(.str "__type__", .str "set")]) =
        .error (.keyError (.str "__data__")) ∧
      PyError.isStrongJsonError (.keyError (.str "__data__")) = false) ∧
    ((StrongJson.mk [("Color", .enumClass "Color" ["RED", "Blue"])]
        "__type__" "__data__" true).default_from_json_dict
        (.dict [(.str "__type__", .str "Color")]) =
        .error (.keyError (.str "__data__")) ∧
      PyError.isStrongJsonError (.keyError (.str "__data__")) = false) := by
  constructor
  · exact c10_missing_data_key_keyerror strong_json [(.str "__type__", .str "set")] "set"
      (by simp [strong_json, dictLookup])
      (Or.inl ⟨by simp, by simp [strong_json, lookupCM]⟩)
      (by simp [strong_json, dictLookup])
  · exact c10_missing_data_key_keyerror _ [(.str "__type__", .str "Color")] "Color"
      (by simp [dictLookup])
      (Or.inr ⟨"Color", ["RED", "Blue"], by simp [lookupCM]⟩)
      (by simp [dictLookup])
